import Mathlib

/-!
Verification of the Sidekick desktop-companion behaviour engine.

The definitions below are a shallow embedding of the TypeScript sources:
the mode engine, arbitration loop and timer-driven proactive scheduler of
the Electron main process, and the depth-gated proactivity scheduler with
its persisted relationship state.  Timestamps and durations are `Int`
(JavaScript integer milliseconds), probabilities and persisted numbers
are `ℚ` (JavaScript numbers; the code uses no operation where binary
floating point and exact rationals part ways for the properties proved
here).  Every call to `Math.random()` is modelled as an explicit
argument, per draw site.
-/

namespace Sidekick

attribute [local semireducible] Rat.add Rat.sub Rat.mul Rat.inv Rat.ofScientific

/-- JavaScript `String.prototype.trim`, on the character list (the
library `String.trim` is not kernel-reducible). -/
def jsTrim (s : String) : String :=
  ⟨((s.data.dropWhile Char.isWhitespace).reverse.dropWhile Char.isWhitespace).reverse⟩

/-- JavaScript `String.prototype.toLowerCase` (ASCII range). -/
def jsToLower (s : String) : String := ⟨s.data.map Char.toLower⟩

def leadsWith : List Char → List Char → Bool
  | [], _ => true
  | _ :: _, [] => false
  | p :: ps, c :: cs => p = c && leadsWith ps cs

def includesAux (pat : List Char) : List Char → Bool
  | [] => leadsWith pat []
  | c :: cs => leadsWith pat (c :: cs) || includesAux pat cs

/-- JavaScript `String.prototype.includes`. -/
def strIncludes (s pat : String) : Bool := includesAux pat.data s.data

/-- JavaScript `String.prototype.endsWith`. -/
def strEndsWith (s t : String) : Bool := leadsWith t.data.reverse s.data.reverse

/-- Drop the last `n` characters. -/
def strDropRight (s : String) (n : Nat) : String := ⟨s.data.take (s.data.length - n)⟩

/-- Split a character list at a separator character (as
`String.prototype.split` with a one-character separator). -/
def splitChar (sep : Char) : List Char → List (List Char)
  | [] => [[]]
  | c :: cs =>
    match splitChar sep cs with
    | [] => [[]]
    | h :: t => if c = sep then [] :: h :: t else (c :: h) :: t

/-- The three behaviour modes; the source aliases `PrimaryMode` and
`EffectiveMode` to the same string union "serious" | "active" | "idle".
The UI labels them Focus / Hang out / Quiet respectively. -/
inductive SMode where
  | serious
  | active
  | idle
deriving DecidableEq, Repr

abbrev PrimaryMode := SMode

abbrev EffectiveMode := SMode

/-- `formatLabel` from `buildSystemPrompt`: the UI-facing name of a mode. -/
def formatLabel : SMode → String
  | .serious => "Focus"
  | .active => "Hang out"
  | .idle => "Quiet"

inductive AppCategory where
  | work
  | casual
  | unknown
deriving DecidableEq, Repr

/-- `ModeState` of the mode-engine iteration (module-global mutable record). -/
structure ModeState where
  primaryMode : PrimaryMode
  effectiveMode : EffectiveMode
  effectiveReason : String
  idleMs : Int
  isIdle : Bool
  focusLocked : Bool
  lastUserSendAt : Int
  activeApp : Option String
  appCategory : AppCategory
deriving DecidableEq, Repr

def IDLE_THRESHOLD_MS : Int := 1 * 60 * 1000

def SERIOUS_AFTER_SEND_MS : Int := 2 * 60 * 1000

def WORK_APP_HINTS : List String :=
  ["code", "visual studio code", "code-insiders", "xcode", "intellij", "pycharm",
   "webstorm", "notion", "obsidian", "word", "winword", "excel", "powerpoint",
   "chrome", "google chrome", "chromium", "brave", "safari", "firefox", "edge",
   "msedge", "arc", "opera", "vivaldi", "teams", "slack", "terminal", "iterm"]

def CASUAL_APP_HINTS : List String := ["spotify", "steam", "netflix", "youtube"]

/-- `normalizeProcessName`: trim, lowercase, strip a trailing ".exe" then ".app". -/
def normalizeProcessName (name : Option String) : Option String :=
  match name with
  | none => none
  | some n =>
    let trimmed := jsTrim n
    if trimmed = "" then none
    else
      let lowered := jsToLower trimmed
      let noExe := if strEndsWith lowered ".exe" then strDropRight lowered 4 else lowered
      let noApp := if strEndsWith noExe ".app" then strDropRight noExe 4 else noExe
      some noApp

def matchesAny (name : String) (hints : List String) : Bool :=
  hints.any fun hint => strIncludes name hint

/-- `classifyApp`: casual hints win over work hints; anything else is unknown. -/
def classifyApp (processName : Option String) : AppCategory :=
  match processName with
  | none => .unknown
  | some n =>
    if n = "" then .unknown
    else if matchesAny n CASUAL_APP_HINTS then .casual
    else if matchesAny n WORK_APP_HINTS then .work
    else .unknown

/-- `computeEffectiveMode(now)`.  The source reads the OS idle time
(`powerMonitor.getSystemIdleTime()`, seconds) inside the function and
writes `idleMs` and `isIdle` back into the shared `modeState`; here the
sample is the `idleSec` argument and the updated record is returned. -/
def computeEffectiveMode (s : ModeState) (idleSec now : Int) :
    ModeState × EffectiveMode × String :=
  let idleMs := idleSec * 1000
  let s1 : ModeState :=
    { s with idleMs := idleMs, isIdle := decide (idleMs ≥ IDLE_THRESHOLD_MS) }
  if s1.primaryMode = .idle then (s1, .idle, "primary setting: Quiet")
  else if s1.primaryMode = .serious then (s1, .serious, "primary setting: Focus")
  else if s1.focusLocked then (s1, .serious, "focus lock enabled")
  else if s1.lastUserSendAt > 0 ∧ now - s1.lastUserSendAt < SERIOUS_AFTER_SEND_MS then
    (s1, .serious, "recent activity")
  else if s1.appCategory = .work then (s1, .serious, "work app detected")
  else if s1.appCategory = .casual then (s1, .active, "casual app detected")
  else if s1.isIdle then (s1, .idle, "system inactive")
  else (s1, .active, "primary setting: Hang out")

/-- The mode-resolution rules as the specification words them (amended to
the reason strings the source actually returns): an ordered first-match
list over the inputs, free of any state handling. -/
def specResolve (primary : PrimaryMode) (focusLocked : Bool) (appCategory : AppCategory)
    (lastUserSendAt idleMs now : Int) : EffectiveMode × String :=
  if primary = .idle then (.idle, "primary setting: Quiet")
  else if primary = .serious then (.serious, "primary setting: Focus")
  else if focusLocked then (.serious, "focus lock enabled")
  else if lastUserSendAt > 0 ∧ now - lastUserSendAt < SERIOUS_AFTER_SEND_MS then
    (.serious, "recent activity")
  else if appCategory = .work then (.serious, "work app detected")
  else if appCategory = .casual then (.active, "casual app detected")
  else if idleMs ≥ IDLE_THRESHOLD_MS then (.idle, "system inactive")
  else (.active, "primary setting: Hang out")

/-- One tick of `runModeLoop`: refresh the active app (skipped when a
lookup is already in flight), recompute the effective mode, store the
`(mode, reason)` pair only when it changed, then call `broadcastMode`,
which sends a `mode:update` notification whenever the window exists.
Returns the updated state and whether a notification was sent. -/
def runModeLoopStep (s : ModeState) (inFlight : Bool) (sampled : Option String)
    (windowPresent : Bool) (idleSec now : Int) : ModeState × Bool :=
  let s0 :=
    if inFlight then s
    else { s with activeApp := sampled,
                  appCategory := classifyApp (normalizeProcessName sampled) }
  let r := computeEffectiveMode s0 idleSec now
  let s1 := r.1
  let next := r.2
  let s2 :=
    if next.1 ≠ s1.effectiveMode ∨ next.2 ≠ s1.effectiveReason then
      { s1 with effectiveMode := next.1, effectiveReason := next.2 }
    else s1
  (s2, windowPresent)

-- -------------------- timer-driven proactive presence --------------------

def PROACTIVE_IDLE_THRESHOLD_MS : Int := 3 * 60 * 1000

def PROACTIVE_RATE_LIMIT_MS : Int := 50 * 60 * 1000

def PROACTIVE_RETRY_MS : Int := 2 * 60 * 1000

def PROACTIVE_TEMPLATES : List String :=
  ["I\x27m here if you want to chat.",
   "I\x27m around if you need anything.",
   "I\x27ll be here if you need me.",
   "Feel free to pull me in anytime.",
   "I\x27m here whenever you want a quick check-in."]

/-- `pickProactiveTemplate`: exclude the previous message when possible,
then pick by the random index (`Math.floor(Math.random() * pool.length)`
is modelled as `i % pool.length`). -/
def pickProactiveTemplate (lastProactiveMessage : Option String) (i : Nat) : String :=
  let options := PROACTIVE_TEMPLATES.filter fun t => some t ≠ lastProactiveMessage
  let pool := if options.length > 0 then options else PROACTIVE_TEMPLATES
  pool.getD (i % pool.length) ""

/-- Module-level mutable variables of the timer scheduler that
`attemptProactiveMessage` itself updates. -/
structure SchedState where
  lastProactiveAt : Int
  lastProactiveMessage : Option String
deriving DecidableEq, Repr

/-- Ambient inputs of one `attemptProactiveMessage` timer fire: window
aliveness and visibility, the shared `modeState`, the typing flag,
`lastUserActivityAt`, the OS idle sample (seconds), `Date.now()`, and the
random template index. -/
structure SchedEnv where
  visible : Bool
  mode : ModeState
  typing : Bool
  lastUserActivityAt : Int
  idleSec : Int
  now : Int
  tmplIdx : Nat
deriving Repr

/-- `canSendProactive(now)`, with the same guard chain as the source. -/
def canSendProactive (e : SchedEnv) (lastProactiveAt : Int) : Bool :=
  if !e.visible then false
  else if e.mode.primaryMode ≠ .active then false
  else if e.mode.effectiveMode ≠ .active then false
  else if e.mode.focusLocked then false
  else if e.typing then false
  else if e.idleSec * 1000 < PROACTIVE_IDLE_THRESHOLD_MS then false
  else if e.now - e.lastUserActivityAt < PROACTIVE_IDLE_THRESHOLD_MS then false
  else if e.now - lastProactiveAt < PROACTIVE_RATE_LIMIT_MS then false
  else true

/-- One `attemptProactiveMessage` fire.  Returns the updated scheduler
variables, the emission (its timestamp) when one happened, and the delay
passed to `scheduleProactiveCheck` for the next fire. -/
def attemptStep (e : SchedEnv) (s : SchedState) : SchedState × Option Int × Int :=
  if canSendProactive e s.lastProactiveAt then
    let content := pickProactiveTemplate s.lastProactiveMessage e.tmplIdx
    ({ lastProactiveAt := e.now, lastProactiveMessage := some content },
     some e.now, PROACTIVE_RATE_LIMIT_MS)
  else
    let rateLimitRemaining := max 0 (PROACTIVE_RATE_LIMIT_MS - (e.now - s.lastProactiveAt))
    (s, none, max PROACTIVE_RETRY_MS rateLimitRemaining)

/-- A run of successive timer fires, collecting the emission timestamps. -/
def runSched : SchedState → List SchedEnv → SchedState × List Int
  | s, [] => (s, [])
  | s, e :: rest =>
    let r := attemptStep e s
    let t := runSched r.1 rest
    (t.1, r.2.1.toList ++ t.2)

-- -------------------- chat messages and persistent memory --------------------

inductive ChatRole where
  | system
  | user
  | assistant
deriving DecidableEq, Repr

inductive ContentPart where
  | text (t : String)
  | imageUrl (url : String)
deriving DecidableEq, Repr

inductive ChatContent where
  | str (s : String)
  | parts (l : List ContentPart)
deriving DecidableEq, Repr

structure ChatMsg where
  role : ChatRole
  content : ChatContent
deriving DecidableEq, Repr

/-- `extractText`: a string passes through; a parts array keeps only the
text parts, joined with spaces and trimmed. -/
def extractText : ChatContent → String
  | .str s => s
  | .parts l =>
    jsTrim (String.intercalate " " (l.map fun p => match p with | .text t => t | .imageUrl _ => ""))

/-- `getLastUserMessageText`: the trimmed text of the last user message,
or `none` when there is no user message. -/
def getLastUserMessageText (messages : List ChatMsg) : Option String :=
  (messages.reverse.find? fun m => m.role = .user).map fun m => jsTrim (extractText m.content)

structure Memory where
  updatedAt : Int
  facts : List String
deriving DecidableEq, Repr

/-- The `memory:addFact` IPC handler as a function from the loaded memory
to the memory it stores and returns: trim, drop empty input, drop
duplicates, otherwise prepend and cap the list at 50 facts (the write
stamps `updatedAt` with `Date.now()`). -/
def addFact (now : Int) (fact : String) (mem : Memory) : Memory :=
  let trimmed := jsTrim fact
  if trimmed = "" then mem
  else if mem.facts.contains trimmed then mem
  else { updatedAt := now, facts := (trimmed :: mem.facts).take 50 }

-- -------------------- parsed JSON values and JavaScript coercions --------------------

/-- A structured-clone / `JSON.parse` value, as handed to the persistence
readers and the IPC handlers. -/
inductive Json where
  | null
  | bool (b : Bool)
  | num (q : ℚ)
  | str (s : String)
  | arr (items : List Json)
  | obj (fields : List (String × Json))

/-- `parsed?.key`: field access on an object, `undefined` (here `none`)
on anything else. -/
def Json.get (j : Json) (key : String) : Option Json :=
  match j with
  | .obj fields => (fields.find? fun f => f.1 = key).map Prod.snd
  | _ => none

/-- Decimal parsing for JavaScript `Number(string)`; exponents, hex and
other exotic forms are approximated as NaN (`none`). -/
def parseDecimalDigits : List Char → Option Nat
  | [] => none
  | cs => cs.foldl (fun acc c =>
      match acc with
      | none => none
      | some n => if c.isDigit then some (n * 10 + (c.toNat - 48)) else none) (some 0)

def parseDecimal (s : String) : Option ℚ :=
  if s = "" then some 0
  else
    let (sign, rest) :=
      match s.data with
      | '-' :: cs => ((-1 : ℚ), cs)
      | '+' :: cs => ((1 : ℚ), cs)
      | cs => ((1 : ℚ), cs)
    match (splitChar '.' rest).map String.mk with
    | [ip] => (parseDecimalDigits ip.data).map fun n => sign * n
    | [ip, fp] =>
      if ip = "" ∧ fp = "" then none
      else
        let ipart : Option ℚ := if ip = "" then some 0 else (parseDecimalDigits ip.data).map Nat.cast
        let fpart : Option ℚ :=
          if fp = "" then some 0
          else (parseDecimalDigits fp.data).map fun n => (n : ℚ) / ((10 : ℚ) ^ fp.length)
        match ipart, fpart with
        | some a, some b => some (sign * (a + b))
        | _, _ => none
    | _ => none

/-- JavaScript `Number(v)`; `none` is NaN.  `Number` applied to a
non-empty array or to an object is approximated as NaN. -/
def jsToNumber : Option Json → Option ℚ
  | none => none
  | some .null => some 0
  | some (.bool b) => some (if b then 1 else 0)
  | some (.num q) => some q
  | some (.str s) => parseDecimal (jsTrim s)
  | some (.arr []) => some 0
  | some (.arr (_ :: _)) => none
  | some (.obj _) => none

/-- `Number(v) || d`: the fallback replaces NaN and zero. -/
def jsNumberOr (v : Option Json) (d : ℚ) : ℚ :=
  match jsToNumber v with
  | some q => if q = 0 then d else q
  | none => d

/-- `Number(v) || null`. -/
def jsNumberOrNull (v : Option Json) : Option ℚ :=
  match jsToNumber v with
  | some q => if q = 0 then none else some q
  | none => none

/-- JavaScript truthiness of a field value. -/
def jsTruthy : Option Json → Bool
  | none => false
  | some .null => false
  | some (.bool b) => b
  | some (.num q) => decide (q ≠ 0)
  | some (.str s) => decide (s ≠ "")
  | some (.arr _) => true
  | some (.obj _) => true

mutual

/-- JavaScript `String(v)`; number formatting is approximated by the
rational printer. -/
def jsToString : Json → String
  | .null => "null"
  | .bool b => if b then "true" else "false"
  | .num q => toString q
  | .str s => s
  | .arr items => ",".intercalate (jsListToString items)
  | .obj _ => "[object Object]"

def jsListToString : List Json → List String
  | [] => []
  | j :: rest => jsToString j :: jsListToString rest

end

-- -------------------- persisted proactivity state --------------------

/-- `normalizeConversationDepth` maps everything outside {2,3,4} to 1,
so the depth setting is one of four values. -/
inductive ConversationDepth where
  | d1
  | d2
  | d3
  | d4
deriving DecidableEq, Repr

inductive ProactivityCategory where
  | ambient
  | memory
  | emotional
  | invitation
deriving DecidableEq, Repr

def categoryName : ProactivityCategory → String
  | .ambient => "ambient"
  | .memory => "memory"
  | .emotional => "emotional"
  | .invitation => "invitation"

inductive ProactivityTrigger where
  | sessionStart
  | sessionFocus
  | memoryAdded
deriving DecidableEq, Repr

/-- The persisted `ProactivityState` record.  The category last sent is
kept as its stored string form. -/
structure ProactivityState where
  initiative : ℚ
  pendingResponse : Bool
  lastProactiveAt : Option ℚ
  lastProactiveCategory : Option String
  lastMemoryEchoAt : Option ℚ
  lastMemoryEchoFact : Option String
  lastUserMessageAt : Option ℚ
  lastUserMessageText : Option String
  totalUserMessages : ℚ
  daysUsed : List String
  messagesSinceMemoryEcho : ℚ
  recentTemplateIds : List String
  lastIgnoredAt : Option ℚ
deriving DecidableEq, Repr

/-- `clamp(value, min, max)` = `Math.max(min, Math.min(max, value))`. -/
def clamp (value lo hi : ℚ) : ℚ := max lo (min hi value)

/-- The in-code default `ProactivityState`, used for a missing or
unreadable file. -/
def defaultProactivity : ProactivityState :=
  { initiative := 0.35
    pendingResponse := false
    lastProactiveAt := none
    lastProactiveCategory := none
    lastMemoryEchoAt := none
    lastMemoryEchoFact := none
    lastUserMessageAt := none
    lastUserMessageText := none
    totalUserMessages := 0
    daysUsed := []
    messagesSinceMemoryEcho := 0
    recentTemplateIds := []
    lastIgnoredAt := none }

/-- `readProactivity()`: `none` stands for a missing file or a JSON parse
failure (both yield the default); otherwise each field is coerced from
the parsed value exactly as in the source.  The `as ProactivityCategory`
cast keeps whatever string is stored; a non-string truthy value there is
approximated as `none`. -/
def readProactivity (file : Option Json) : ProactivityState :=
  match file with
  | none => defaultProactivity
  | some j =>
    { initiative := clamp (jsNumberOr (j.get "initiative") 0.35) 0.05 0.95
      pendingResponse := jsTruthy (j.get "pendingResponse")
      lastProactiveAt := jsNumberOrNull (j.get "lastProactiveAt")
      lastProactiveCategory :=
        match j.get "lastProactiveCategory" with
        | some (.str s) => if s ≠ "" then some s else none
        | _ => none
      lastMemoryEchoAt := jsNumberOrNull (j.get "lastMemoryEchoAt")
      lastMemoryEchoFact :=
        match j.get "lastMemoryEchoFact" with
        | some (.str s) => some s
        | _ => none
      lastUserMessageAt := jsNumberOrNull (j.get "lastUserMessageAt")
      lastUserMessageText :=
        match j.get "lastUserMessageText" with
        | some (.str s) => some s
        | _ => none
      totalUserMessages := jsNumberOr (j.get "totalUserMessages") 0
      daysUsed :=
        match j.get "daysUsed" with
        | some (.arr items) => items.map jsToString
        | _ => []
      messagesSinceMemoryEcho := jsNumberOr (j.get "messagesSinceMemoryEcho") 0
      recentTemplateIds :=
        match j.get "recentTemplateIds" with
        | some (.arr items) => items.map jsToString
        | _ => []
      lastIgnoredAt := jsNumberOrNull (j.get "lastIgnoredAt") }

/-- The claimed persistence invariant: `initiative` within its clamp
bounds and the anti-repetition window holding at most 8 ids. -/
def ProInv (s : ProactivityState) : Prop :=
  0.05 ≤ s.initiative ∧ s.initiative ≤ 0.95 ∧ s.recentTemplateIds.length ≤ 8

instance (s : ProactivityState) : Decidable (ProInv s) :=
  decidable_of_iff
    (0.05 ≤ s.initiative ∧ s.initiative ≤ 0.95 ∧ s.recentTemplateIds.length ≤ 8) Iff.rfl

-- -------------------- depth-gated proactivity scheduler --------------------

inductive EmotionCue where
  | tired
  | stressed
  | excited
  | happy
  | down
deriving DecidableEq, Repr

structure Template where
  id : String
  text : String
deriving DecidableEq, Repr

structure MemTemplate where
  id : String
  text : String → String

def AMBIENT_TEMPLATES : List Template :=
  [⟨"ambient-still-here", "Mm. Still here."⟩,
   ⟨"ambient-quiet", "It’s quiet today."⟩,
   ⟨"ambient-around", "I’m around."⟩,
   ⟨"ambient-hanging", "Just hanging out."⟩,
   ⟨"ambient-sitting", "I’m here with you."⟩]

def INVITATION_TEMPLATES : List Template :=
  [⟨"invite-company", "If you want company, I’m here."⟩,
   ⟨"invite-talk", "We could talk for a bit."⟩,
   ⟨"invite-hang", "I can hang out with you for a minute."⟩,
   ⟨"invite-share", "We could share the moment for a bit."⟩]

def EMOTIONAL_TEMPLATES : EmotionCue → List Template
  | .tired =>
    [⟨"emotion-tired-worn", "You sounded a little worn out earlier."⟩,
     ⟨"emotion-tired-heavy", "That tired kind of lingered earlier."⟩]
  | .stressed =>
    [⟨"emotion-stressed-weight", "That sounded like a lot earlier."⟩,
     ⟨"emotion-stressed-tight", "You sounded a bit stretched earlier."⟩]
  | .excited =>
    [⟨"emotion-excited-light", "You sounded kind of energized earlier."⟩,
     ⟨"emotion-excited-bright", "That felt bright earlier."⟩]
  | .happy =>
    [⟨"emotion-happy-lighter", "You sounded lighter earlier."⟩,
     ⟨"emotion-happy-warm", "That sounded warm a bit ago."⟩]
  | .down =>
    [⟨"emotion-down-soft", "You sounded a little low earlier."⟩,
     ⟨"emotion-down-heavy", "That felt heavy earlier."⟩]

def MEMORY_TEMPLATES : List MemTemplate :=
  [⟨"memory-stuck", fun fact => "You mentioned " ++ fact ++ " earlier. It stuck with me."⟩,
   ⟨"memory-thinking", fun fact => "I was thinking about " ++ fact ++ "."⟩,
   ⟨"memory-returned", fun fact => "That thing about " ++ fact ++ " came back to me."⟩]

def EMOTION_KEYWORDS : EmotionCue → List String
  | .tired => ["tired", "exhausted", "drained", "sleepy", "wiped"]
  | .stressed => ["stressed", "overwhelmed", "anxious", "pressure", "tense"]
  | .excited => ["excited", "hyped", "pumped", "stoked"]
  | .happy => ["happy", "glad", "good", "great", "relieved"]
  | .down => ["sad", "down", "low", "rough", "hard", "lonely"]

/-- Insertion order of `EMOTION_KEYWORDS`, as `Object.entries` iterates it. -/
def emotionCueOrder : List EmotionCue := [.tired, .stressed, .excited, .happy, .down]

def PROACTIVE_MIN_GAP_MS : ℚ := 2 * 60 * 1000

def IGNORE_DECAY_GAP_MS : ℚ := 6 * 60 * 60 * 1000

/-- `getRelationshipScore`: weighted blend of the message-count and
distinct-days scores, clamped to [0, 1]. -/
def getRelationshipScore (state : ProactivityState) : ℚ :=
  let messageScore := clamp (state.totalUserMessages / 24) 0 1
  let daysScore := clamp ((state.daysUsed.length : ℚ) / 8) 0 1
  clamp (messageScore * 0.7 + daysScore * 0.3) 0 1

/-- `detectEmotionCue`: first cue (in insertion order) with a keyword
contained in the lowercased text; the empty string and `null` are falsy. -/
def detectEmotionCue (text : Option String) : Option EmotionCue :=
  match text with
  | none => none
  | some t =>
    if t = "" then none
    else
      let normalized := jsToLower t
      emotionCueOrder.find? fun cue =>
        (EMOTION_KEYWORDS cue).any fun word => strIncludes normalized word

/-- `pickTemplate`: exclude recently used ids when possible, then pick by
the random index. -/
def pickTemplate (templates : List Template) (recentIds : List String) (i : Nat) : Template :=
  let filtered := templates.filter fun t => !recentIds.contains t.id
  let pool := if filtered.length > 0 then filtered else templates
  pool.getD (i % pool.length) ⟨"", ""⟩

def pickMemTemplate (templates : List MemTemplate) (recentIds : List String) (i : Nat) :
    MemTemplate :=
  let filtered := templates.filter fun t => !recentIds.contains t.id
  let pool := if filtered.length > 0 then filtered else templates
  pool.getD (i % pool.length) ⟨"", fun _ => ""⟩

/-- `pickMemoryFact`: avoid the fact echoed last time when possible. -/
def pickMemoryFact (mem : Memory) (state : ProactivityState) (i : Nat) : Option String :=
  if mem.facts.length = 0 then none
  else
    let candidates := mem.facts.filter fun fact => some fact ≠ state.lastMemoryEchoFact
    let pool := if candidates.length > 0 then candidates else mem.facts
    some (pool.getD (i % pool.length) "")

def getAllowedCategories : ConversationDepth → List ProactivityCategory
  | .d1 => [.ambient]
  | .d2 => [.ambient, .memory]
  | .d3 => [.ambient, .memory, .emotional]
  | .d4 => [.ambient, .memory, .emotional, .invitation]

def triggerBoost : ProactivityTrigger → ℚ
  | .sessionStart => 0.45
  | .sessionFocus => 0.25
  | .memoryAdded => 0.6

def getProactivityChance (trigger : ProactivityTrigger) (state : ProactivityState) : ℚ :=
  clamp (state.initiative * triggerBoost trigger + getRelationshipScore state * 0.15) 0.1 0.85

structure BuiltProactive where
  text : String
  category : ProactivityCategory
  templateId : String
  fact : Option String
deriving DecidableEq, Repr

/-- The `canUseMemory` gate of `maybeBuildProactiveMessage`. -/
def canUseMemory (mem : Memory) (state : ProactivityState) (depth : ConversationDepth) : Bool :=
  (getAllowedCategories depth).contains .memory && mem.facts.length > 0 &&
    state.messagesSinceMemoryEcho ≥ 3

/-- The `emotionCue` binding of `maybeBuildProactiveMessage`: only looked
up when the tier allows the emotional category. -/
def emotionCueOf (state : ProactivityState) (depth : ConversationDepth) : Option EmotionCue :=
  if (getAllowedCategories depth).contains .emotional then
    detectEmotionCue state.lastUserMessageText
  else none

/-- The `canUseEmotional` gate of `maybeBuildProactiveMessage`. -/
def canUseEmotional (state : ProactivityState) (depth : ConversationDepth) : Bool :=
  (emotionCueOf state depth).isSome && getRelationshipScore state ≥ 0.35

/-- The `canInvite` gate of `maybeBuildProactiveMessage`. -/
def canInvite (state : ProactivityState) (depth : ConversationDepth) : Bool :=
  (getAllowedCategories depth).contains .invitation && getRelationshipScore state ≥ 0.45

/-- The `preferredCategory` binding of `maybeBuildProactiveMessage`. -/
def preferredCategory (trigger : ProactivityTrigger) (mem : Memory) (state : ProactivityState)
    (depth : ConversationDepth) : Option ProactivityCategory :=
  if trigger = .memoryAdded ∧ canUseMemory mem state depth then some .memory else none

/-- The `available` category list of `maybeBuildProactiveMessage`. -/
def availableCats (mem : Memory) (state : ProactivityState) (depth : ConversationDepth) :
    List ProactivityCategory :=
  [.ambient] ++ (if canUseMemory mem state depth then [.memory] else [])
    ++ (if canUseEmotional state depth then [.emotional] else [])
    ++ (if canInvite state depth then [.invitation] else [])

/-- `maybeBuildProactiveMessage(trigger, mem, state, depth)`.  `now` is
the `Date.now()` read at entry; `randChance` is the probability draw and
`catIdx`, `tmplIdx`, `factIdx` model the remaining `Math.random()` index
draws as `i % pool.length`.  The function's local `let` bindings are the
standalone definitions above. -/
def maybeBuildProactiveMessage (trigger : ProactivityTrigger) (mem : Memory)
    (state : ProactivityState) (depth : ConversationDepth) (now randChance : ℚ)
    (catIdx tmplIdx factIdx : Nat) : Option BuiltProactive :=
  let gapBlocked :=
    match state.lastProactiveAt with
    | some t => decide (now - t < PROACTIVE_MIN_GAP_MS)
    | none => false
  if gapBlocked then none
  else
    let emotionCue := emotionCueOf state depth
    let available := availableCats mem state depth
    if available.length = 0 then none
    else if randChance > getProactivityChance trigger state then none
    else
      let category :=
        (preferredCategory trigger mem state depth).getD
          (available.getD (catIdx % available.length) .ambient)
      match category with
      | .memory =>
        match pickMemoryFact mem state factIdx with
        | none => none
        | some fact =>
          let template := pickMemTemplate MEMORY_TEMPLATES state.recentTemplateIds tmplIdx
          some { text := template.text fact, category := .memory,
                 templateId := template.id, fact := some fact }
      | .emotional =>
        match emotionCue with
        | some cue =>
          let template := pickTemplate (EMOTIONAL_TEMPLATES cue) state.recentTemplateIds tmplIdx
          some { text := template.text, category := .emotional,
                 templateId := template.id, fact := none }
        | none =>
          let template := pickTemplate AMBIENT_TEMPLATES state.recentTemplateIds tmplIdx
          some { text := template.text, category := .ambient,
                 templateId := template.id, fact := none }
      | .invitation =>
        let template := pickTemplate INVITATION_TEMPLATES state.recentTemplateIds tmplIdx
        some { text := template.text, category := .invitation,
               templateId := template.id, fact := none }
      | .ambient =>
        let template := pickTemplate AMBIENT_TEMPLATES state.recentTemplateIds tmplIdx
        some { text := template.text, category := .ambient,
               templateId := template.id, fact := none }

/-- JavaScript `list.slice(-8)`. -/
def takeRight (n : Nat) (l : List String) : List String := l.drop (l.length - n)

/-- The `proactivity:maybeInitiate` IPC handler as a function from the
loaded state to the state it stores plus the emitted message text, if
any.  An attempt while `pendingResponse` is still set either applies the
ignore penalty (when never penalized, or penalized more than the decay
gap ago) or does nothing, and never emits. -/
def maybeInitiateStep (state : ProactivityState) (mem : Memory) (depth : ConversationDepth)
    (trigger : ProactivityTrigger) (now randChance : ℚ) (catIdx tmplIdx factIdx : Nat) :
    ProactivityState × Option String :=
  if state.pendingResponse then
    let penalize :=
      match state.lastIgnoredAt with
      | none => true
      | some t => decide (now - t > IGNORE_DECAY_GAP_MS)
    if penalize then
      ({ state with initiative := clamp (state.initiative - 0.05) 0.05 0.95,
                    lastIgnoredAt := some now }, none)
    else (state, none)
  else
    match maybeBuildProactiveMessage trigger mem state depth now randChance catIdx tmplIdx factIdx with
    | none => (state, none)
    | some result =>
      let base : ProactivityState :=
        { state with
            pendingResponse := true
            lastProactiveAt := some now
            lastProactiveCategory := some (categoryName result.category)
            recentTemplateIds := takeRight 8 (state.recentTemplateIds ++ [result.templateId])
            lastIgnoredAt := none }
      let nextState :=
        if result.category = .memory then
          { base with messagesSinceMemoryEcho := 0, lastMemoryEchoAt := some now,
                      lastMemoryEchoFact := result.fact }
        else base
      (nextState, some result.text)

/-- `updateProactivityForUserMessage(messages)`: bump the counters, stamp
the day and message recency, and treat a pending proactive message as
implicitly acknowledged. -/
def updForUserMessage (state : ProactivityState) (messages : List ChatMsg) (now : ℚ)
    (today : String) : ProactivityState :=
  let lastUserText := getLastUserMessageText messages
  let n1 : ProactivityState :=
    { state with totalUserMessages := state.totalUserMessages + 1,
                 messagesSinceMemoryEcho := state.messagesSinceMemoryEcho + 1,
                 lastUserMessageAt := some now }
  let n2 :=
    match lastUserText with
    | some t => if t ≠ "" then { n1 with lastUserMessageText := some t } else n1
    | none => n1
  let n3 := if n2.daysUsed.contains today then n2 else { n2 with daysUsed := n2.daysUsed ++ [today] }
  if n3.pendingResponse then
    { n3 with pendingResponse := false,
              initiative := clamp (n3.initiative + 0.08) 0.05 0.95,
              lastIgnoredAt := none }
  else n3

/-- An event of the companion iteration's proactivity state machine:
either an `ai:chat` user message (which runs
`updateProactivityForUserMessage`) or a `proactivity:maybeInitiate`
trigger. -/
inductive PullEvent where
  | user (messages : List ChatMsg) (now : ℚ) (today : String)
  | initiate (trigger : ProactivityTrigger) (mem : Memory) (depth : ConversationDepth)
      (now randChance : ℚ) (catIdx tmplIdx factIdx : Nat)

/-- Run a sequence of pull-path events, collecting the timestamps of the
emitted proactive messages. -/
def runInitiate : ProactivityState → List PullEvent → ProactivityState × List ℚ
  | s, [] => (s, [])
  | s, .user messages now today :: rest => runInitiate (updForUserMessage s messages now today) rest
  | s, .initiate trigger mem depth now randChance catIdx tmplIdx factIdx :: rest =>
    let r := maybeInitiateStep s mem depth trigger now randChance catIdx tmplIdx factIdx
    let t := runInitiate r.1 rest
    (t.1, (match r.2 with | some _ => [now] | none => []) ++ t.2)

-- -------------------- the mode:setPrimary IPC handler --------------------

/-- `isPrimaryMode` over the raw IPC argument. -/
def isPrimaryMode : Json → Bool
  | .str "serious" => true
  | .str "active" => true
  | .str "idle" => true
  | _ => false

def primaryOf (v : Json) : PrimaryMode :=
  match v with
  | .str "serious" => .serious
  | .str "idle" => .idle
  | _ => .active

/-- The `mode:setPrimary` IPC handler: an argument that is not a valid
primary mode is rejected before any mutation, settings write or
broadcast, and the current state is returned unchanged.  The result is
`(stored mode state, whether settings were written, returned state)`. -/
def setPrimaryStep (s : ModeState) (v : Json) (idleSec now : Int) :
    ModeState × Bool × ModeState :=
  if !isPrimaryMode v then (s, false, s)
  else
    let s1 := { s with primaryMode := primaryOf v }
    let r := computeEffectiveMode s1 idleSec now
    let s2 := { r.1 with effectiveMode := r.2.1, effectiveReason := r.2.2 }
    (s2, true, s2)

-- -------------------- concrete example values --------------------

/-- A mode state in primary Hang out with a work app in the foreground. -/
def exWorkState : ModeState :=
  ⟨.active, .active, "primary setting: Hang out", 0, false, false, 0, some "Code", .work⟩

/-- A mode state already published as Quiet by primary setting. -/
def exQuietState : ModeState :=
  ⟨.idle, .idle, "primary setting: Quiet", 0, false, false, 0, none, .unknown⟩

/-- A plain Hang out mode state with no overriding signal. -/
def exPlainState : ModeState :=
  ⟨.active, .active, "primary setting: Hang out", 0, false, false, 0, none, .unknown⟩

/-- `exPlainState` with a different published reason but the same
resolver-relevant fields. -/
def exPlainStateB : ModeState :=
  ⟨.active, .active, "casual app detected", 500, true, false, 0, none, .unknown⟩

/-- A timer-scheduler environment in which every eligibility guard holds. -/
def exEligibleEnv : SchedEnv :=
  ⟨true, exPlainState, false, 0, 200, 4000000, 0⟩

/-- A timer-scheduler environment with the window hidden. -/
def exHiddenEnv : SchedEnv :=
  ⟨false, exPlainState, false, 0, 200, 4000000, 0⟩

def exSchedState : SchedState := ⟨0, none⟩

/-- A persisted proactivity state whose relationship score is 1 and whose
memory-echo gate is open. -/
def exRichState : ProactivityState :=
  { defaultProactivity with
      totalUserMessages := 24
      daysUsed := ["d1", "d2", "d3", "d4", "d5", "d6", "d7", "d8"]
      messagesSinceMemoryEcho := 3 }

def exFactMemory : Memory := ⟨0, ["your project"]⟩

def exEmptyMemory : Memory := ⟨0, []⟩

/-- A proactivity state whose last proactive message went out one minute
into the epoch. -/
def exRecentProactive : ProactivityState :=
  { defaultProactivity with lastProactiveAt := some 60000 }

/-- A proactivity state awaiting acknowledgment, last penalized at time 0. -/
def exPendingState : ProactivityState :=
  { defaultProactivity with pendingResponse := true, lastIgnoredAt := some 0 }

/-- A stored proactivity file with nine recent template ids. -/
def exOversizedJson : Json :=
  .obj [("recentTemplateIds",
         .arr [.str "a", .str "b", .str "c", .str "d", .str "e",
               .str "f", .str "g", .str "h", .str "i"])]

def exUserMsgs : List ChatMsg := [⟨.user, .str "hello there"⟩]

-- -------------------- theorems --------------------

/-- The resolver agrees everywhere with the first-match rule list, stated
over its inputs alone. -/
lemma cem_spec (s : ModeState) (idleSec now : Int) :
    (computeEffectiveMode s idleSec now).2 =
      specResolve s.primaryMode s.focusLocked s.appCategory s.lastUserSendAt
        (idleSec * 1000) now := by
  unfold computeEffectiveMode specResolve
  dsimp only
  split_ifs <;> simp_all

/-- C1 counterexample: with primary Hang out, zero idle and a work app in
the foreground, the resolver does return Focus ("serious"), but its
reason string is "work app detected", not the claimed
"work application detected". -/
theorem C1_counterexample :
    (computeEffectiveMode exWorkState 0 1000000).2 = (.serious, "work app detected") ∧
    "work app detected" ≠ "work application detected" :=
  ⟨rfl, by decide⟩

/-- C1 amended: for every input, the resolver's result is the first
matching rule of the exact ordered list of the claim, with the reason
strings the source actually uses: (1) primary Quiet ->
(Quiet, "primary setting: Quiet"); (2) primary Focus ->
(Focus, "primary setting: Focus"); (3) focus lock ->
(Focus, "focus lock enabled"); (4) a user send less than 2 minutes ago ->
(Focus, "recent activity"); (5) work app -> (Focus, "work app detected");
(6) casual app -> (HangOut, "casual app detected"); (7) idle at or above
the threshold -> (Quiet, "system inactive"); (8) otherwise
(HangOut, "primary setting: Hang out"). -/
theorem C1_mode_rules (s : ModeState) (idleSec now : Int) :
    (computeEffectiveMode s idleSec now).2 =
      specResolve s.primaryMode s.focusLocked s.appCategory s.lastUserSendAt
        (idleSec * 1000) now :=
  cem_spec s idleSec now

/-- C3 counterexample: a tick on which the freshly computed mode and
reason both equal the already-published ones still sends a `mode:update`
notification (whenever the window exists). -/
theorem C3_counterexample :
    (computeEffectiveMode exQuietState 0 0).2 =
      (exQuietState.effectiveMode, exQuietState.effectiveReason) ∧
    (runModeLoopStep exQuietState true none true 0 0).2 = true :=
  ⟨rfl, rfl⟩

/-- Reading the stored pair back after the change-guarded store always
yields the freshly computed pair. -/
lemma loop_store (s1 : ModeState) (m : EffectiveMode) (rs : String) :
    ((if m ≠ s1.effectiveMode ∨ rs ≠ s1.effectiveReason then
        { s1 with effectiveMode := m, effectiveReason := rs } else s1).effectiveMode,
     (if m ≠ s1.effectiveMode ∨ rs ≠ s1.effectiveReason then
        { s1 with effectiveMode := m, effectiveReason := rs } else s1).effectiveReason) =
      (m, rs) := by
  split_ifs with h
  · rfl
  · push_neg at h
    simp [h.1, h.2]

/-- C3 amended: the arbitration tick stores the freshly computed
`(mode, reason)` pair (the change check only guards the redundant store),
and broadcasts the full mode state to the renderer on every tick on which
the window exists, changed or not. -/
theorem C3_broadcast_every_tick (s : ModeState) (inFlight : Bool) (sampled : Option String)
    (windowPresent : Bool) (idleSec now : Int) :
    (runModeLoopStep s inFlight sampled windowPresent idleSec now).2 = windowPresent ∧
    ((runModeLoopStep s inFlight sampled windowPresent idleSec now).1.effectiveMode,
     (runModeLoopStep s inFlight sampled windowPresent idleSec now).1.effectiveReason) =
      (computeEffectiveMode
        (if inFlight then s
         else { s with activeApp := sampled,
                       appCategory := classifyApp (normalizeProcessName sampled) })
        idleSec now).2 := by
  refine ⟨rfl, ?_⟩
  unfold runModeLoopStep
  dsimp only
  rw [loop_store]

/-- C4 counterexample: the resolver is not a function of the
`(primary, signals, activity, now)` tuple alone and it mutates shared
state: with the identical mode state and `now`, two calls that observe
different ambient idle samples return different pairs, and a call writes
the sampled idle time back into the shared record. -/
theorem C4_counterexample :
    (computeEffectiveMode exPlainState 0 5).2 ≠ (computeEffectiveMode exPlainState 120 5).2 ∧
    (computeEffectiveMode exPlainState 120 5).1 ≠ exPlainState := by
  decide

/-- C4 amended: the resolver's `(mode, reason)` output is a deterministic
function of the primary setting, the focus lock, the app category, the
last-send timestamp, the ambient idle sample and `now` — it does not read
any other field of the shared state — and its only write-back to the
shared state is to the `idleMs` and `isIdle` fields. -/
theorem C4_resolver_noninterference :
    (∀ (s s' : ModeState) (idleSec now : Int),
       s.primaryMode = s'.primaryMode → s.focusLocked = s'.focusLocked →
       s.appCategory = s'.appCategory → s.lastUserSendAt = s'.lastUserSendAt →
       (computeEffectiveMode s idleSec now).2 = (computeEffectiveMode s' idleSec now).2) ∧
    (∀ (s : ModeState) (idleSec now : Int),
       (computeEffectiveMode s idleSec now).1 =
         { s with idleMs := idleSec * 1000,
                  isIdle := decide (idleSec * 1000 ≥ IDLE_THRESHOLD_MS) }) := by
  constructor
  · intro s s' idleSec now h1 h2 h3 h4
    rw [cem_spec, cem_spec, h1, h2, h3, h4]
  · intro s idleSec now
    unfold computeEffectiveMode
    dsimp only
    split_ifs <;> rfl

/-- C4 witness: the noninterference half applied to two concrete states
that agree on the four consulted fields but differ elsewhere. -/
theorem C4_witness :
    exPlainState.primaryMode = exPlainStateB.primaryMode ∧
    exPlainState.focusLocked = exPlainStateB.focusLocked ∧
    exPlainState.appCategory = exPlainStateB.appCategory ∧
    exPlainState.lastUserSendAt = exPlainStateB.lastUserSendAt ∧
    (computeEffectiveMode exPlainState 0 7).2 = (computeEffectiveMode exPlainStateB 0 7).2 :=
  ⟨rfl, rfl, rfl, rfl,
   C4_resolver_noninterference.1 exPlainState exPlainStateB 0 7 rfl rfl rfl rfl⟩

/-- C9: `mode:setPrimary` with an argument that is not one of the three
valid primary-setting values never throws (the handler is total), leaves
every field of the mode state unchanged, writes no settings to disk, and
returns the unchanged current state to the caller. -/
theorem C9_setPrimary_invalid (s : ModeState) (v : Json) (idleSec now : Int)
    (h : isPrimaryMode v = false) :
    setPrimaryStep s v idleSec now = (s, false, s) := by
  unfold setPrimaryStep
  simp [h]

/-- C9 witness: the theorem applied to the invalid argument "banana". -/
theorem C9_witness :
    isPrimaryMode (Json.str "banana") = false ∧
    setPrimaryStep exPlainState (Json.str "banana") 3 4000 = (exPlainState, false, exPlainState) :=
  ⟨rfl, C9_setPrimary_invalid exPlainState (Json.str "banana") 3 4000 rfl⟩

/-- C10: `memory:addFact` keeps the stored list at no more than 50 facts
(given it was within the cap), returns the memory unchanged on empty or
whitespace-only input and on an already-present (trimmed) fact, and
prepends a genuinely new fact to the front of the list. -/
theorem C10_addFact :
    (∀ (now : Int) (fact : String) (mem : Memory), mem.facts.length ≤ 50 →
       (addFact now fact mem).facts.length ≤ 50) ∧
    (∀ (now : Int) (fact : String) (mem : Memory), jsTrim fact = "" →
       addFact now fact mem = mem) ∧
    (∀ (now : Int) (fact : String) (mem : Memory), mem.facts.contains (jsTrim fact) = true →
       addFact now fact mem = mem) ∧
    (∀ (now : Int) (fact : String) (mem : Memory), jsTrim fact ≠ "" →
       mem.facts.contains (jsTrim fact) = false →
       (addFact now fact mem).facts = (jsTrim fact :: mem.facts).take 50 ∧
       (addFact now fact mem).facts.head? = some (jsTrim fact)) := by
  refine ⟨?_, ?_, ?_, ?_⟩
  · intro now fact mem h
    unfold addFact
    dsimp only
    split_ifs <;> simp_all [List.length_take]
  · intro now fact mem h
    unfold addFact
    simp [h]
  · intro now fact mem h
    unfold addFact
    dsimp only
    split_ifs <;> simp_all
  · intro now fact mem h1 h2
    unfold addFact
    dsimp only
    split_ifs <;> simp_all [List.take_succ_cons]

/-- C10 witness: the four parts applied to concrete memories: a fresh
fact is prepended, a duplicate and a whitespace-only input are ignored,
and the cap is preserved. -/
theorem C10_witness :
    jsTrim " sidekick " ≠ "" ∧
    exFactMemory.facts.contains (jsTrim " sidekick ") = false ∧
    (addFact 5 " sidekick " exFactMemory).facts =
      (jsTrim " sidekick " :: exFactMemory.facts).take 50 ∧
    addFact 5 "   " exFactMemory = exFactMemory ∧
    addFact 5 "your project" exFactMemory = exFactMemory ∧
    (addFact 5 "sidekick" exFactMemory).facts.length ≤ 50 :=
  ⟨by decide, by decide,
   (C10_addFact.2.2.2 5 " sidekick " exFactMemory (by decide) (by decide)).1,
   C10_addFact.2.1 5 "   " exFactMemory (by decide),
   C10_addFact.2.2.1 5 "your project" exFactMemory (by decide),
   C10_addFact.1 5 "sidekick" exFactMemory (by decide)⟩

/-- The guard chain of `canSendProactive` spelled out: a `true` result
pins down every eligibility condition. -/
lemma canSend_spec (e : SchedEnv) (last : Int) (h : canSendProactive e last = true) :
    e.visible = true ∧ e.mode.primaryMode = .active ∧ e.mode.effectiveMode = .active ∧
    e.mode.focusLocked = false ∧ e.typing = false ∧
    e.idleSec * 1000 ≥ PROACTIVE_IDLE_THRESHOLD_MS ∧
    e.now - e.lastUserActivityAt ≥ PROACTIVE_IDLE_THRESHOLD_MS ∧
    e.now - last ≥ PROACTIVE_RATE_LIMIT_MS := by
  unfold canSendProactive at h
  split_ifs at h
  simp_all [not_lt]

/-- C2 counterexample: the pull-style `proactivity:maybeInitiate` path is
not subject to the timer path's eligibility logic: three minutes after
its last proactive message — far inside the timer path's 50-minute
rate-limit window, and with no mode, visibility, typing or idle check
anywhere on the path — it emits again. -/
theorem C2_counterexample :
    (maybeInitiateStep exRecentProactive exEmptyMemory .d1 .sessionStart 240000 0 0 0 0).2 =
      some "Mm. Still here." ∧
    (240000 : Int) - 60000 < PROACTIVE_RATE_LIMIT_MS :=
  ⟨rfl, by decide⟩

/-- C2 amended: the timer-driven scheduler emits only when
`canSendProactive` holds, which structurally requires effective mode
Hang out ("active") — hence never Focus or Quiet — together with a
visible window, primary Hang out, focus lock off, not typing, system
idle and time since last activity at or above the 3-minute threshold,
and at least the 50-minute rate limit since the last proactive message.
The pull-style handler of the companion iteration checks only its
`pendingResponse` flag and a 2-minute minimum gap on its own persisted
state. -/
theorem C2_emission_requires_active :
    (∀ (e : SchedEnv) (last : Int), canSendProactive e last = true →
       e.mode.effectiveMode = .active ∧ e.mode.effectiveMode ≠ .serious ∧
       e.mode.effectiveMode ≠ .idle ∧ e.mode.primaryMode = .active ∧
       e.mode.focusLocked = false ∧ e.typing = false ∧ e.visible = true ∧
       e.idleSec * 1000 ≥ PROACTIVE_IDLE_THRESHOLD_MS ∧
       e.now - e.lastUserActivityAt ≥ PROACTIVE_IDLE_THRESHOLD_MS ∧
       e.now - last ≥ PROACTIVE_RATE_LIMIT_MS) ∧
    (∀ (e : SchedEnv) (s : SchedState), (attemptStep e s).2.1 ≠ none →
       canSendProactive e s.lastProactiveAt = true) := by
  constructor
  · intro e last h
    obtain ⟨h1, h2, h3, h4, h5, h6, h7, h8⟩ := canSend_spec e last h
    refine ⟨h3, ?_, ?_, h2, h4, h5, h1, h6, h7, h8⟩ <;> simp [h3]
  · intro e s h
    by_cases hc : canSendProactive e s.lastProactiveAt = true
    · exact hc
    · exfalso
      apply h
      unfold attemptStep
      simp [hc]

/-- C2 witness: the first half applied to a concrete fully eligible
environment. -/
theorem C2_witness :
    canSendProactive exEligibleEnv exSchedState.lastProactiveAt = true ∧
    exEligibleEnv.mode.effectiveMode = SMode.active :=
  ⟨by decide,
   (C2_emission_requires_active.1 exEligibleEnv exSchedState.lastProactiveAt (by decide)).1⟩

lemma clamp_le (x lo hi : ℚ) (h : lo ≤ hi) : lo ≤ clamp x lo hi ∧ clamp x lo hi ≤ hi := by
  unfold clamp
  exact ⟨le_max_left _ _, max_le h (min_le_left _ _)⟩

lemma clamp_up_strict (x : ℚ) (h : x < 0.95) : x < clamp (x + 0.08) 0.05 0.95 := by
  unfold clamp
  have h1 : x < x + 0.08 := by linarith
  exact (lt_min h h1).trans_le (le_max_right _ _)

lemma clamp_down_strict (x : ℚ) (h : 0.05 < x) : clamp (x - 0.05) 0.05 0.95 < x := by
  unfold clamp
  apply max_lt h
  calc min 0.95 (x - 0.05) ≤ x - 0.05 := min_le_right _ _
    _ < x := by linarith

lemma takeRight_le (l : List String) : (takeRight 8 l).length ≤ 8 := by
  unfold takeRight
  simp only [List.length_drop]
  omega

/-- What one user message does to the fields the invariants watch, and
to the acknowledgment flag. -/
lemma upd_spec (s : ProactivityState) (messages : List ChatMsg) (now : ℚ) (today : String) :
    (updForUserMessage s messages now today).recentTemplateIds = s.recentTemplateIds ∧
    (updForUserMessage s messages now today).lastProactiveAt = s.lastProactiveAt ∧
    (s.pendingResponse = true →
      (updForUserMessage s messages now today).pendingResponse = false ∧
      (updForUserMessage s messages now today).initiative = clamp (s.initiative + 0.08) 0.05 0.95 ∧
      (updForUserMessage s messages now today).lastIgnoredAt = none) ∧
    ((updForUserMessage s messages now today).initiative = s.initiative ∨
     (updForUserMessage s messages now today).initiative = clamp (s.initiative + 0.08) 0.05 0.95) := by
  unfold updForUserMessage
  dsimp only
  cases hg : getLastUserMessageText messages <;> dsimp only <;> split_ifs <;> simp_all

/-- C5 counterexample: loading a stored file whose `recentTemplateIds`
array holds nine ids yields a state whose window exceeds the cap of 8 —
the reader clamps `initiative` but never truncates this list. -/
theorem C5_counterexample :
    (readProactivity (some exOversizedJson)).recentTemplateIds.length = 9 ∧
    ¬ ProInv (readProactivity (some exOversizedJson)) :=
  ⟨rfl, by decide⟩

/-- C5 amended: loading always clamps `initiative` into [0.05, 0.95]
(also from corrupted data), and recording a user message or a proactive
attempt / ignore penalty preserves the full invariant (initiative within
bounds and at most 8 recent template ids); but loading passes the stored
`recentTemplateIds` through untruncated, so the length cap is not
restored by a load. -/
theorem C5_invariants :
    (∀ (file : Option Json),
       0.05 ≤ (readProactivity file).initiative ∧ (readProactivity file).initiative ≤ 0.95) ∧
    (∀ (s : ProactivityState) (messages : List ChatMsg) (now : ℚ) (today : String),
       ProInv s → ProInv (updForUserMessage s messages now today)) ∧
    (∀ (s : ProactivityState) (mem : Memory) (depth : ConversationDepth)
       (trigger : ProactivityTrigger) (now randChance : ℚ) (catIdx tmplIdx factIdx : Nat),
       ProInv s →
       ProInv (maybeInitiateStep s mem depth trigger now randChance catIdx tmplIdx factIdx).1) := by
  refine ⟨?_, ?_, ?_⟩
  · intro file
    cases file with
    | none =>
      constructor <;> norm_num [readProactivity, defaultProactivity]
    | some j =>
      unfold readProactivity
      exact clamp_le _ _ _ (by norm_num)
  · intro s messages now today h
    obtain ⟨h1, h2, h3⟩ := h
    obtain ⟨hids, _, _, hinit⟩ := upd_spec s messages now today
    refine ⟨?_, ?_, by rw [hids]; exact h3⟩ <;> rcases hinit with he | he <;> rw [he]
    · exact h1
    · exact (clamp_le _ _ _ (by norm_num)).1
    · exact h2
    · exact (clamp_le _ _ _ (by norm_num)).2
  · intro s mem depth trigger now randChance catIdx tmplIdx factIdx h
    obtain ⟨h1, h2, h3⟩ := h
    unfold maybeInitiateStep
    dsimp only
    split_ifs
    · exact ⟨(clamp_le _ _ _ (by norm_num)).1, (clamp_le _ _ _ (by norm_num)).2, h3⟩
    · exact ⟨h1, h2, h3⟩
    · cases hm : maybeBuildProactiveMessage trigger mem s depth now randChance catIdx tmplIdx factIdx with
      | none => exact ⟨h1, h2, h3⟩
      | some r =>
        dsimp only
        split_ifs <;> exact ⟨h1, h2, takeRight_le _⟩

/-- C5 witness: the invariant-preservation halves applied at concrete
states, and the load half at the missing-file default. -/
theorem C5_witness :
    ProInv defaultProactivity ∧
    ProInv (updForUserMessage defaultProactivity exUserMsgs 100 "2026-02-03") ∧
    ProInv exPendingState ∧
    ProInv (maybeInitiateStep exPendingState exEmptyMemory .d1 .sessionStart 30000000 0 0 0 0).1 ∧
    0.05 ≤ (readProactivity none).initiative :=
  ⟨by decide,
   C5_invariants.2.1 defaultProactivity exUserMsgs 100 "2026-02-03" (by decide),
   by decide,
   C5_invariants.2.2 exPendingState exEmptyMemory .d1 .sessionStart 30000000 0 0 0 0 (by decide),
   (C5_invariants.1 none).1⟩

/-- C6: acknowledgment feedback.  (a) A user message while
`pendingResponse` is set clears the flag and raises `initiative` by the
0.08 step under the 0.95 clamp — a strict increase whenever it was below
the ceiling.  (b) A `maybeInitiate` attempt while the flag is still set,
more than the 6-hour decay window after the last penalty, lowers
`initiative` by the 0.05 step under the 0.05 floor — a strict decrease
whenever it was above the floor — records the penalty time, and emits
nothing.  (c) Every emission sets the flag. -/
theorem C6_feedback :
    (∀ (s : ProactivityState) (messages : List ChatMsg) (now : ℚ) (today : String),
       s.pendingResponse = true →
       (updForUserMessage s messages now today).pendingResponse = false ∧
       (updForUserMessage s messages now today).initiative =
         clamp (s.initiative + 0.08) 0.05 0.95 ∧
       (s.initiative < 0.95 →
         s.initiative < (updForUserMessage s messages now today).initiative) ∧
       (updForUserMessage s messages now today).initiative ≤ 0.95) ∧
    (∀ (s : ProactivityState) (mem : Memory) (depth : ConversationDepth)
       (trigger : ProactivityTrigger) (now randChance : ℚ) (catIdx tmplIdx factIdx : Nat)
       (t : ℚ), s.pendingResponse = true → s.lastIgnoredAt = some t →
       now - t > IGNORE_DECAY_GAP_MS →
       (maybeInitiateStep s mem depth trigger now randChance catIdx tmplIdx factIdx).2 = none ∧
       (maybeInitiateStep s mem depth trigger now randChance catIdx tmplIdx factIdx).1.initiative =
         clamp (s.initiative - 0.05) 0.05 0.95 ∧
       (0.05 < s.initiative →
         (maybeInitiateStep s mem depth trigger now randChance
           catIdx tmplIdx factIdx).1.initiative < s.initiative) ∧
       0.05 ≤ (maybeInitiateStep s mem depth trigger now randChance
           catIdx tmplIdx factIdx).1.initiative ∧
       (maybeInitiateStep s mem depth trigger now randChance
           catIdx tmplIdx factIdx).1.lastIgnoredAt = some now) ∧
    (∀ (s : ProactivityState) (mem : Memory) (depth : ConversationDepth)
       (trigger : ProactivityTrigger) (now randChance : ℚ) (catIdx tmplIdx factIdx : Nat)
       (text : String), s.pendingResponse = false →
       (maybeInitiateStep s mem depth trigger now randChance catIdx tmplIdx factIdx).2 =
         some text →
       (maybeInitiateStep s mem depth trigger now randChance
         catIdx tmplIdx factIdx).1.pendingResponse = true) := by
  refine ⟨?_, ?_, ?_⟩
  · intro s messages now today hp
    obtain ⟨_, _, hpend, _⟩ := upd_spec s messages now today
    obtain ⟨hf, hi, _⟩ := hpend hp
    refine ⟨hf, hi, ?_, by rw [hi]; exact (clamp_le _ _ _ (by norm_num)).2⟩
    intro hlt
    rw [hi]
    have h1 : s.initiative < s.initiative + 0.08 := by linarith
    exact (clamp_up_strict s.initiative hlt)
  · intro s mem depth trigger now randChance catIdx tmplIdx factIdx t hp ht hgap
    have key : maybeInitiateStep s mem depth trigger now randChance catIdx tmplIdx factIdx =
        ({ s with initiative := clamp (s.initiative - 0.05) 0.05 0.95,
                  lastIgnoredAt := some now }, none) := by
      simp only [maybeInitiateStep, hp, ht, if_true]
      simp [hgap]
    rw [key]
    exact ⟨rfl, rfl, fun hgt => clamp_down_strict s.initiative hgt,
      (clamp_le _ _ _ (by norm_num)).1, rfl⟩
  · intro s mem depth trigger now randChance catIdx tmplIdx factIdx text hp hsome
    unfold maybeInitiateStep at hsome ⊢
    rw [hp] at hsome ⊢
    cases hm : maybeBuildProactiveMessage trigger mem s depth now randChance catIdx tmplIdx factIdx with
    | none =>
      rw [hm] at hsome
      simp at hsome
    | some r =>
      simp only [hm, Bool.false_eq_true, if_false]
      split_ifs <;> rfl

/-- C6 witness: the three parts applied at concrete states — a pending
state acknowledged by a user message, the same pending state penalized
seven hours later, and a fresh emission setting the flag. -/
theorem C6_witness :
    exPendingState.pendingResponse = true ∧
    (updForUserMessage exPendingState exUserMsgs 100 "2026-01-01").pendingResponse = false ∧
    exPendingState.lastIgnoredAt = some 0 ∧
    ((30000000 : ℚ) - 0 > IGNORE_DECAY_GAP_MS) ∧
    (maybeInitiateStep exPendingState exEmptyMemory .d1 .sessionStart 30000000 0 0 0 0).2 =
      none ∧
    (maybeInitiateStep exPendingState exEmptyMemory .d1 .sessionStart
      30000000 0 0 0 0).1.initiative < exPendingState.initiative ∧
    (maybeInitiateStep exRecentProactive exEmptyMemory .d1 .sessionStart
      240000 0 0 0 0).1.pendingResponse = true :=
  ⟨rfl,
   (C6_feedback.1 exPendingState exUserMsgs 100 "2026-01-01" rfl).1,
   rfl, by decide,
   (C6_feedback.2.1 exPendingState exEmptyMemory .d1 .sessionStart
     30000000 0 0 0 0 0 rfl rfl (by decide)).1,
   (C6_feedback.2.1 exPendingState exEmptyMemory .d1 .sessionStart
     30000000 0 0 0 0 0 rfl rfl (by decide)).2.2.1 (by decide),
   C6_feedback.2.2 exRecentProactive exEmptyMemory .d1 .sessionStart
     240000 0 0 0 0 "Mm. Still here." rfl rfl⟩

lemma rate_limit_pos : (0 : Int) ≤ PROACTIVE_RATE_LIMIT_MS := by decide

lemma min_gap_pos : (0 : ℚ) ≤ PROACTIVE_MIN_GAP_MS := by decide

/-- Eligibility puts the fire time at least one full rate-limit window
after the previous emission. -/
lemma canSend_rate (e : SchedEnv) (last : Int) (h : canSendProactive e last = true) :
    last + PROACTIVE_RATE_LIMIT_MS ≤ e.now := by
  have hs := (canSend_spec e last h).2.2.2.2.2.2.2
  omega

/-- Every emission of a timer-fire run lies at least one rate-limit
window after the scheduler state's last emission time. -/
lemma runSched_emissions_ge (envs : List SchedEnv) :
    ∀ (s : SchedState) (t : Int), t ∈ (runSched s envs).2 →
      s.lastProactiveAt + PROACTIVE_RATE_LIMIT_MS ≤ t := by
  induction envs with
  | nil =>
    intro s t ht
    simp [runSched] at ht
  | cons e rest ih =>
    intro s t ht
    unfold runSched at ht
    dsimp only at ht
    by_cases hc : canSendProactive e s.lastProactiveAt = true
    · simp only [attemptStep, hc, if_true, Option.toList_some, List.cons_append,
        List.nil_append, List.mem_cons] at ht
      rcases ht with h1 | h1
      · subst h1
        exact canSend_rate e s.lastProactiveAt hc
      · have h2 := ih _ t h1
        have h3 := canSend_rate e s.lastProactiveAt hc
        have h4 := rate_limit_pos
        dsimp only at h2
        omega
    · simp only [attemptStep, hc, if_false, Bool.false_eq_true, Option.toList_none,
        List.nil_append] at ht
      exact ih _ t ht

lemma runSched_pairwise (envs : List SchedEnv) :
    ∀ (s : SchedState),
      ((runSched s envs).2).Pairwise (fun a b => a + PROACTIVE_RATE_LIMIT_MS ≤ b) := by
  induction envs with
  | nil =>
    intro s
    simp [runSched]
  | cons e rest ih =>
    intro s
    unfold runSched
    dsimp only
    by_cases hc : canSendProactive e s.lastProactiveAt = true
    · simp only [attemptStep, hc, if_true, Option.toList_some, List.cons_append, List.nil_append]
      refine List.Pairwise.cons ?_ (ih _)
      intro t ht
      exact runSched_emissions_ge rest _ t ht
    · simp only [attemptStep, hc, if_false, Bool.false_eq_true, Option.toList_none,
        List.nil_append]
      exact ih _

/-- A successful pull-path build implies the 2-minute minimum gap had
elapsed since the state's last proactive message. -/
lemma mbpm_gap (trigger : ProactivityTrigger) (mem : Memory) (s : ProactivityState)
    (depth : ConversationDepth) (now randChance : ℚ) (catIdx tmplIdx factIdx : Nat)
    (r : BuiltProactive)
    (h : maybeBuildProactiveMessage trigger mem s depth now randChance catIdx tmplIdx factIdx =
      some r) :
    ∀ u, s.lastProactiveAt = some u → PROACTIVE_MIN_GAP_MS ≤ now - u := by
  intro u hu
  unfold maybeBuildProactiveMessage at h
  rw [hu] at h
  by_cases hg : now - u < PROACTIVE_MIN_GAP_MS
  · simp [hg] at h
  · exact not_lt.mp hg

/-- An emitting `maybeInitiate` stamps `lastProactiveAt` with `now` and
presupposes the minimum gap; a silent one leaves the stamp unchanged. -/
lemma initStep_last (s : ProactivityState) (mem : Memory) (depth : ConversationDepth)
    (trigger : ProactivityTrigger) (now randChance : ℚ) (catIdx tmplIdx factIdx : Nat) :
    (∀ text,
      (maybeInitiateStep s mem depth trigger now randChance catIdx tmplIdx factIdx).2 =
        some text →
      (maybeInitiateStep s mem depth trigger now randChance
        catIdx tmplIdx factIdx).1.lastProactiveAt = some now ∧
      (∀ u, s.lastProactiveAt = some u → PROACTIVE_MIN_GAP_MS ≤ now - u)) ∧
    ((maybeInitiateStep s mem depth trigger now randChance catIdx tmplIdx factIdx).2 = none →
      (maybeInitiateStep s mem depth trigger now randChance
        catIdx tmplIdx factIdx).1.lastProactiveAt = s.lastProactiveAt) := by
  unfold maybeInitiateStep
  by_cases hp : s.pendingResponse = true
  · simp only [hp, if_true]
    constructor
    · intro text htext
      split_ifs at htext
    · intro hnone
      split_ifs <;> rfl
  · have hp' : s.pendingResponse = false := by simpa using hp
    simp only [hp', Bool.false_eq_true, if_false]
    cases hm : maybeBuildProactiveMessage trigger mem s depth now randChance catIdx tmplIdx factIdx with
    | none =>
      constructor
      · intro text htext
        simp at htext
      · intro _
        rfl
    | some r =>
      constructor
      · intro text htext
        refine ⟨?_, mbpm_gap trigger mem s depth now randChance catIdx tmplIdx factIdx r hm⟩
        dsimp only
        split_ifs <;> rfl
      · intro hnone
        simp at hnone


/-- Every emission of a pull-path run lies at least one minimum gap
after the state's recorded last proactive time. -/
lemma runInitiate_ge (evs : List PullEvent) :
    ∀ (s : ProactivityState) (m : ℚ), s.lastProactiveAt = some m →
      ∀ t ∈ (runInitiate s evs).2, m + PROACTIVE_MIN_GAP_MS ≤ t := by
  induction evs with
  | nil =>
    intro s m hm t ht
    simp [runInitiate] at ht
  | cons ev rest ih =>
    intro s m hm t ht
    cases ev with
    | user messages now today =>
      unfold runInitiate at ht
      refine ih _ m ?_ t ht
      rw [(upd_spec s messages now today).2.1]
      exact hm
    | initiate trigger mem depth now randChance catIdx tmplIdx factIdx =>
      unfold runInitiate at ht
      dsimp only at ht
      cases hr : (maybeInitiateStep s mem depth trigger now randChance catIdx tmplIdx factIdx).2 with
      | none =>
        rw [hr] at ht
        dsimp only at ht
        refine ih _ m ?_ t ht
        rw [(initStep_last s mem depth trigger now randChance catIdx tmplIdx factIdx).2 hr]
        exact hm
      | some text =>
        rw [hr] at ht
        dsimp only at ht
        obtain ⟨hstamp, hgap⟩ :=
          (initStep_last s mem depth trigger now randChance catIdx tmplIdx factIdx).1 text hr
        have hnow := hgap m hm
        rcases List.mem_cons.mp ht with h1 | h1
        · subst h1
          linarith
        · have h2 := ih _ now hstamp t h1
          have h3 := min_gap_pos
          linarith

lemma runInitiate_pairwise (evs : List PullEvent) :
    ∀ (s : ProactivityState),
      ((runInitiate s evs).2).Pairwise (fun a b => a + PROACTIVE_MIN_GAP_MS ≤ b) := by
  induction evs with
  | nil =>
    intro s
    simp [runInitiate]
  | cons ev rest ih =>
    intro s
    cases ev with
    | user messages now today =>
      unfold runInitiate
      exact ih _
    | initiate trigger mem depth now randChance catIdx tmplIdx factIdx =>
      unfold runInitiate
      dsimp only
      cases hr : (maybeInitiateStep s mem depth trigger now randChance catIdx tmplIdx factIdx).2 with
      | none =>
        exact ih _
      | some text =>
        dsimp only
        refine List.Pairwise.cons ?_ (ih _)
        intro t ht
        have hstamp :=
          ((initStep_last s mem depth trigger now randChance catIdx tmplIdx factIdx).1 text hr).1
        exact runInitiate_ge rest _ now hstamp t ht

/-- C7: rate limiting.  (a) Over any run of timer fires, the emission
timestamps are pairwise separated by at least the 50-minute rate-limit
window: an emission is only possible once the window has elapsed, and a
successful emission restamps the cooling-down clock.  (b) An ineligible
timer fire reschedules the next check after the longer of the 2-minute
retry delay and the remainder of the rate-limit window.  (c) Over any
run of the companion iteration's pull-path events, emissions are
pairwise separated by at least that path's own 2-minute minimum gap,
which is the bound it enforces in place of the timer path's window. -/
theorem C7_rate_limiting :
    (∀ (s : SchedState) (envs : List SchedEnv),
       ((runSched s envs).2).Pairwise (fun a b => a + PROACTIVE_RATE_LIMIT_MS ≤ b)) ∧
    (∀ (e : SchedEnv) (s : SchedState), (attemptStep e s).2.1 = none →
       (attemptStep e s).2.2 =
         max PROACTIVE_RETRY_MS
           (max 0 (PROACTIVE_RATE_LIMIT_MS - (e.now - s.lastProactiveAt)))) ∧
    (∀ (s : ProactivityState) (evs : List PullEvent),
       ((runInitiate s evs).2).Pairwise (fun a b => a + PROACTIVE_MIN_GAP_MS ≤ b)) := by
  refine ⟨fun s envs => runSched_pairwise envs s, ?_, fun s evs => runInitiate_pairwise evs s⟩
  intro e s h
  by_cases hc : canSendProactive e s.lastProactiveAt = true
  · exfalso
    rw [attemptStep, if_pos hc] at h
    simp at h
  · rw [attemptStep, if_neg hc]

/-- C7 witness: part (b) applied to an ineligible fire (hidden window),
and parts (a) and (c) at concrete two-fire runs. -/
theorem C7_witness :
    (attemptStep exHiddenEnv exSchedState).2.1 = none ∧
    (attemptStep exHiddenEnv exSchedState).2.2 =
      max PROACTIVE_RETRY_MS
        (max 0 (PROACTIVE_RATE_LIMIT_MS - (exHiddenEnv.now - exSchedState.lastProactiveAt))) ∧
    ((runSched exSchedState [exEligibleEnv, exHiddenEnv]).2).Pairwise
      (fun a b => a + PROACTIVE_RATE_LIMIT_MS ≤ b) ∧
    ((runInitiate exRecentProactive
        [.initiate .sessionStart exEmptyMemory .d1 240000 0 0 0 0]).2).Pairwise
      (fun a b => a + PROACTIVE_MIN_GAP_MS ≤ b) :=
  ⟨rfl, C7_rate_limiting.2.1 exHiddenEnv exSchedState rfl,
   C7_rate_limiting.1 exSchedState [exEligibleEnv, exHiddenEnv],
   C7_rate_limiting.2.2 exRecentProactive
     [.initiate .sessionStart exEmptyMemory .d1 240000 0 0 0 0]⟩

lemma getD_mod_mem {α : Type} (l : List α) (i : Nat) (d : α) (h : l ≠ []) :
    l.getD (i % l.length) d ∈ l := by
  have hpos : 0 < l.length := List.length_pos.mpr h
  have hlt : i % l.length < l.length := Nat.mod_lt _ hpos
  rw [List.getD_eq_getElem?_getD, List.getElem?_eq_getElem hlt, Option.getD_some]
  exact List.getElem_mem hlt

lemma availableCats_ne_nil (mem : Memory) (s : ProactivityState) (depth : ConversationDepth) :
    availableCats mem s depth ≠ [] := by
  simp [availableCats]

lemma mem_availableCats (mem : Memory) (s : ProactivityState) (depth : ConversationDepth)
    (c : ProactivityCategory) (h : c ∈ availableCats mem s depth) :
    (c = .memory → canUseMemory mem s depth = true) ∧
    (c = .emotional → canUseEmotional s depth = true) ∧
    (c = .invitation → canInvite s depth = true) := by
  unfold availableCats at h
  cases hm : canUseMemory mem s depth <;> cases he : canUseEmotional s depth <;>
    cases hi : canInvite s depth <;> simp_all <;> aesop

lemma scrutinee_spec (trigger : ProactivityTrigger) (mem : Memory) (s : ProactivityState)
    (depth : ConversationDepth) (i : Nat) (c : ProactivityCategory)
    (hc : (preferredCategory trigger mem s depth).getD
      ((availableCats mem s depth).getD (i % (availableCats mem s depth).length) .ambient) = c) :
    (c = .memory → canUseMemory mem s depth = true) ∧
    (c = .emotional → canUseEmotional s depth = true) ∧
    (c = .invitation → canInvite s depth = true) := by
  unfold preferredCategory at hc
  split_ifs at hc with hp
  · rw [Option.getD_some] at hc
    subst hc
    refine ⟨fun _ => hp.2, fun hcontra => by simp at hcontra, fun hcontra => by simp at hcontra⟩
  · rw [Option.getD_none] at hc
    subst hc
    exact mem_availableCats mem s depth _
      (getD_mod_mem _ i _ (availableCats_ne_nil mem s depth))

lemma canUseMemory_spec (mem : Memory) (s : ProactivityState) (depth : ConversationDepth)
    (h : canUseMemory mem s depth = true) :
    (getAllowedCategories depth).contains ProactivityCategory.memory = true ∧
    mem.facts.length > 0 ∧ s.messagesSinceMemoryEcho ≥ 3 := by
  simpa [canUseMemory, Bool.and_eq_true, decide_eq_true_eq, and_assoc] using h

lemma canUseEmotional_spec (s : ProactivityState) (depth : ConversationDepth)
    (h : canUseEmotional s depth = true) :
    (getAllowedCategories depth).contains ProactivityCategory.emotional = true ∧
    (detectEmotionCue s.lastUserMessageText).isSome = true ∧
    getRelationshipScore s ≥ 0.35 := by
  have h2 := h
  simp only [canUseEmotional, Bool.and_eq_true, decide_eq_true_eq] at h2
  obtain ⟨hcue, hrel⟩ := h2
  unfold emotionCueOf at hcue
  split_ifs at hcue with hall
  · exact ⟨by simpa using hall, hcue, hrel⟩
  · simp at hcue

lemma canInvite_spec (s : ProactivityState) (depth : ConversationDepth)
    (h : canInvite s depth = true) :
    (getAllowedCategories depth).contains ProactivityCategory.invitation = true ∧
    getRelationshipScore s ≥ 0.45 := by
  simpa [canInvite, Bool.and_eq_true, decide_eq_true_eq] using h

/-- C8 amended: the category of an emitted proactive message is drawn at
random from the available set — ambient plus every category whose
tier-allowed-set membership and unlock conditions hold — with memory
forced when the trigger is memory-added and memory is available; the
richest category is not preferred.  In particular every emission
satisfies its category's gates: memory requires the tier to allow it, at
least one stored fact and at least 3 user messages since the last echo;
emotional requires the tier to allow it, a detected affect cue in the
most recent user message and relationship score at least 0.35;
invitation requires the tier to allow it and relationship score at least
0.45. -/
theorem C8_category_gates (trigger : ProactivityTrigger) (mem : Memory) (s : ProactivityState)
    (depth : ConversationDepth) (now randChance : ℚ) (catIdx tmplIdx factIdx : Nat)
    (r : BuiltProactive)
    (h : maybeBuildProactiveMessage trigger mem s depth now randChance catIdx tmplIdx factIdx =
      some r) :
    (r.category = .memory →
      (getAllowedCategories depth).contains .memory = true ∧ mem.facts.length > 0 ∧
      s.messagesSinceMemoryEcho ≥ 3) ∧
    (r.category = .emotional →
      (getAllowedCategories depth).contains .emotional = true ∧
      (detectEmotionCue s.lastUserMessageText).isSome = true ∧
      getRelationshipScore s ≥ 0.35) ∧
    (r.category = .invitation →
      (getAllowedCategories depth).contains .invitation = true ∧
      getRelationshipScore s ≥ 0.45) := by
  unfold maybeBuildProactiveMessage at h
  dsimp only at h
  split at h
  · exact absurd h (by simp)
  · split at h
    · exact absurd h (by simp)
    · split at h
      · exact absurd h (by simp)
      · rcases hs : (preferredCategory trigger mem s depth).getD
          ((availableCats mem s depth).getD
            (catIdx % (availableCats mem s depth).length) .ambient) with _ | _ | _ | _
        all_goals rw [hs] at h
        all_goals dsimp only at h
        · -- ambient
          have hr := Option.some.inj h
          refine ⟨?_, ?_, ?_⟩ <;> intro hcat <;> rw [← hr] at hcat <;> simp at hcat
        · -- memory
          obtain ⟨hcm, _, _⟩ := scrutinee_spec trigger mem s depth catIdx _ hs
          split at h
          · exact absurd h (by simp)
          · have hr := Option.some.inj h
            have hgates := canUseMemory_spec mem s depth (hcm rfl)
            refine ⟨fun _ => hgates, ?_, ?_⟩ <;> intro hcat <;> rw [← hr] at hcat <;> simp at hcat
        · -- emotional
          obtain ⟨_, hce, _⟩ := scrutinee_spec trigger mem s depth catIdx _ hs
          split at h
          · have hr := Option.some.inj h
            have hgates := canUseEmotional_spec s depth (hce rfl)
            refine ⟨?_, fun _ => hgates, ?_⟩ <;> intro hcat <;> rw [← hr] at hcat <;> simp at hcat
          · have hr := Option.some.inj h
            refine ⟨?_, ?_, ?_⟩ <;> intro hcat <;> rw [← hr] at hcat <;> simp at hcat
        · -- invitation
          obtain ⟨_, _, hci⟩ := scrutinee_spec trigger mem s depth catIdx _ hs
          have hr := Option.some.inj h
          have hgates := canInvite_spec s depth (hci rfl)
          refine ⟨?_, ?_, fun _ => hgates⟩ <;> intro hcat <;> rw [← hr] at hcat <;> simp at hcat

/-- C8 counterexample: at depth 4 with relationship score 1 (so the
richest category, invitation, is allowed and unlocked) and a memory fact
available, a session-start emission with category draw 0 sends an
ambient message — the scheduler picks randomly among the available
categories rather than the richest one. -/
theorem C8_counterexample :
    maybeBuildProactiveMessage .sessionStart exFactMemory exRichState .d4 1000000 0 0 0 0 =
      some ⟨"Mm. Still here.", .ambient, "ambient-still-here", none⟩ ∧
    canInvite exRichState .d4 = true ∧
    getRelationshipScore exRichState ≥ 0.45 :=
  ⟨rfl, by decide, by decide⟩

/-- C8 witness: the gates theorem applied to a concrete memory-echo
emission. -/
theorem C8_witness :
    maybeBuildProactiveMessage .memoryAdded exFactMemory exRichState .d4 1000000 0 0 0 0 =
      some ⟨"You mentioned your project earlier. It stuck with me.", .memory,
            "memory-stuck", some "your project"⟩ ∧
    ((getAllowedCategories .d4).contains ProactivityCategory.memory = true ∧
     exFactMemory.facts.length > 0 ∧ exRichState.messagesSinceMemoryEcho ≥ 3) :=
  ⟨rfl,
   (C8_category_gates .memoryAdded exFactMemory exRichState .d4 1000000 0 0 0 0
     ⟨"You mentioned your project earlier. It stuck with me.", .memory,
      "memory-stuck", some "your project"⟩ rfl).1 rfl⟩

end Sidekick
